import Mathlib

/-!
Verification of the triangle-arbitrage detection and backtesting pipeline
of `okx_trader.py` (Spot-vs-Futures-Arbitrage repository).

Modelling conventions:
* Python floats are modelled as exact rationals (`ℚ`); the spec's tolerance
  clauses become exact equalities over `ℚ`.
* Timestamps (ISO strings / millisecond epochs) are modelled as abstract
  instants `Nat`; the datetime/ISO conversions in the source are strictly
  monotone injections on the whole-second timestamps in play, so timestamp
  keys are identified with their numeric instants.
* Python `dict`s keyed by timestamp are modelled as association lists in
  insertion order: key set = deduplicated key list, lookup = last binding.
* A Python function that logs and returns `None` on a bad input is
  modelled as returning `none : Option _`.
* `Real.sqrt` and `float('inf')` appear only in the final summary fields
  of the backtest (`std_return`, `sharpe_ratio`); the whole simulation
  fold is kept computable over `ℚ` and the two analytic fields are put on
  top (`ℝ` and `EReal`, where `⊤ : EReal` models `float('inf')`).
-/

namespace OkxTrader

/-- Post-`get_price` view of one data record handed to
`check_triangle_arbitrage`: the three prices as the source's `get_price`
extracts them (`val.get("last")` for dict values, the value itself
otherwise), each possibly absent (`None`). -/
structure MarketData where
  timestamp : Nat
  btc_usdt : Option ℚ
  eth_usdt : Option ℚ
  eth_btc : Option ℚ
deriving DecidableEq, Repr

/-- The result dictionary built by `check_triangle_arbitrage`. -/
structure ArbSignal where
  timestamp : Nat
  btc_usdt : ℚ
  eth_usdt : ℚ
  eth_btc : ℚ
  cycle1_factor : ℚ
  cycle1_opportunity : Bool
  cycle2_factor : ℚ
  cycle2_opportunity : Bool
  threshold : ℚ
deriving DecidableEq, Repr

/-- `check_triangle_arbitrage(threshold, data)` from `okx_trader.py`.

The source guard is `if not (btc_usdt and eth_usdt and eth_btc): return None`:
Python truthiness rejects exactly `None` and `0.0` (a negative price is
truthy and passes).  In the accepted branch
`cycle1 = eth_usdt / (btc_usdt * eth_btc)` and
`cycle2 = (btc_usdt * eth_btc) / eth_usdt`; both denominators are nonzero
there, so rational division is exact. -/
def check_triangle_arbitrage (threshold : ℚ) (data : MarketData) : Option ArbSignal :=
  match data.btc_usdt, data.eth_usdt, data.eth_btc with
  | some pb, some pe, some peb =>
    if pb ≠ 0 ∧ pe ≠ 0 ∧ peb ≠ 0 then
      let cycle1 := pe / (pb * peb)
      let cycle2 := (pb * peb) / pe
      some { timestamp := data.timestamp
             btc_usdt := pb
             eth_usdt := pe
             eth_btc := peb
             cycle1_factor := cycle1
             cycle1_opportunity := decide (cycle1 > 1 + threshold)
             cycle2_factor := cycle2
             cycle2_opportunity := decide (cycle2 > 1 + threshold)
             threshold := threshold }
    else none
  | _, _, _ => none

/-- One ticker as returned by the exchange collaborator: the `"last"` and
`"baseVolume"` fields may each be absent, in which case `dict.get`
yields `None`. -/
structure Ticker where
  last : Option ℚ
  baseVolume : Option ℚ
deriving DecidableEq, Repr

/-- The data dictionary built by `fetch_triangle_market_data`: per pair the
(possibly null) last price and base volume, plus a capture timestamp. -/
structure TriangleData where
  timestamp : Nat
  btc_usdt_last : Option ℚ
  btc_usdt_volume : Option ℚ
  eth_usdt_last : Option ℚ
  eth_usdt_volume : Option ℚ
  eth_btc_last : Option ℚ
  eth_btc_volume : Option ℚ
deriving DecidableEq, Repr

/-- `fetch_triangle_market_data(self)` from `okx_trader.py`.  Each argument
is the outcome of one `fetch_ticker` call: `none` models the call raising
(caught by the `try`, whole function returns `None`), `some t` a returned
ticker dictionary.  When all three calls return, the data dictionary is
assembled from `ticker.get("last")` / `ticker.get("baseVolume")`, which
pass a missing field through as `None`. -/
def fetch_triangle_market_data (now : Nat) (tb te teb : Option Ticker) :
    Option TriangleData :=
  match tb, te, teb with
  | some b, some e, some eb =>
      some ⟨now, b.last, b.baseVolume, e.last, e.baseVolume, eb.last, eb.baseVolume⟩
  | _, _, _ => none

/-- The view of a `TriangleData` dictionary that `check_triangle_arbitrage`
obtains through `get_price` (it extracts the `"last"` field of each
pair's sub-dictionary). -/
def TriangleData.toMarketData (d : TriangleData) : MarketData :=
  ⟨d.timestamp, d.btc_usdt_last, d.eth_usdt_last, d.eth_btc_last⟩

/-! ## Historical data: chunked fetch and merge -/

/-- One OHLCV candle as consumed by the source: open time (ms) and close
price (`candle[0]` and `candle[4]`). -/
structure Candle where
  ts : Nat
  close : ℚ
deriving DecidableEq, Repr

/-- The external `fetch_ohlcv` collaborator, determinised as a function of
`(symbol, since)`.  `fetch_ge_since` is the documented API contract that a
page starts at the requested `since` (§6 of the design: candles are
returned from `since` onwards); the source's cursor arithmetic
(`since = batch[-1][0] + 1`) terminates only under it. -/
structure OHLCVSource where
  limit : Nat
  fetch : String → Nat → List Candle
  fetch_ge_since : ∀ sym since c, c ∈ fetch sym since → since ≤ c.ts

/-- The inner per-pair paging loop of
`fetch_all_historical_triangle_data_incremental`:

    while since < end_timestamp:
        batch = fetch_ohlcv(sym, since, limit)
        if not batch: break
        for candle in batch:
            if candle[0] >= end_timestamp: break
            candles.append(candle)
        since = batch[-1][0] + 1
        if len(batch) < limit: break
-/
def fetchPairCandles (o : OHLCVSource) (sym : String) (endTs since : Nat) :
    List Candle :=
  if hlt : since < endTs then
    match hb : o.fetch sym since with
    | [] => []
    | c :: cs =>
      let kept := (c :: cs).takeWhile (fun cd => decide (cd.ts < endTs))
      if (c :: cs).length < o.limit then kept
      else
        kept ++ fetchPairCandles o sym endTs
          (((c :: cs).getLast (List.cons_ne_nil c cs)).ts + 1)
  else []
termination_by endTs - since
decreasing_by
  have hmem : (c :: cs).getLast (List.cons_ne_nil c cs) ∈ o.fetch sym since := by
    rw [hb]; exact List.getLast_mem _
  have hge := o.fetch_ge_since sym since _ hmem
  omega

/-- The outer chunking loop: `while current_start < end_dt`, with
`current_end = min(current_start + chunk, end_dt)`, emitting the
consecutive sub-windows in order.  (For `chunk = 0` the Python loop would
not terminate; every property below assumes `0 < chunk`.) -/
def windows (chunk : Nat) (start endT : Nat) : List (Nat × Nat) :=
  if h : start < endT ∧ 0 < chunk then
    (start, min (start + chunk) endT) ::
      windows chunk (min (start + chunk) endT) endT
  else []
termination_by endT - start
decreasing_by
  have h1 : start < min (start + chunk) endT := by omega
  omega

/-- `{iso(candle[0]): candle[4] for candle in candles}` as an association
list in insertion order (a later binding for the same key overrides). -/
def candleDict (candles : List Candle) : List (Nat × ℚ) :=
  candles.map (fun c => (c.ts, c.close))

/-- The key set of a Python dict modelled as an association list. -/
def dict_keys (d : List (Nat × ℚ)) : List Nat :=
  (d.map Prod.fst).dedup

/-- Dict lookup: the last binding for the key, if any. -/
def dict_get (d : List (Nat × ℚ)) (t : Nat) : Option ℚ :=
  ((d.filter (fun p => p.1 == t)).getLast?).map Prod.snd

/-- `sorted(set(k1) & set(k2) & set(k3))`: the common timestamps of the
three pairs for one sub-window, ascending. -/
def commonTs (k1 k2 k3 : List Nat) : List Nat :=
  List.insertionSort (· ≤ ·)
    ((k1.filter (fun t => decide (t ∈ k2) && decide (t ∈ k3))).dedup)

/-- The merge step: one record per common timestamp, carrying the three
close prices looked up in the per-pair dicts. -/
def mergeWindow (d1 d2 d3 : List (Nat × ℚ)) : List MarketData :=
  (commonTs (dict_keys d1) (dict_keys d2) (dict_keys d3)).map
    (fun t => ⟨t, dict_get d1 t, dict_get d2 t, dict_get d3 t⟩)

/-- All records emitted for one sub-window `[a, b)`: fetch the three pairs
over the window, build the per-pair dicts, merge. -/
def windowRecords (o : OHLCVSource) (a b : Nat) : List MarketData :=
  mergeWindow (candleDict (fetchPairCandles o "BTC/USDT" b a))
              (candleDict (fetchPairCandles o "ETH/USDT" b a))
              (candleDict (fetchPairCandles o "ETH/BTC" b a))

/-- `fetch_all_historical_triangle_data_incremental(start, end, ...)`:
the full record sequence written to the JSON file, sub-window by
sub-window. -/
def fetch_all_historical_triangle_data_incremental
    (o : OHLCVSource) (start endT chunk : Nat) : List MarketData :=
  (windows chunk start endT).flatMap (fun w => windowRecords o w.1 w.2)

/-! ## Backtest -/

/-- The mutable simulation state of `backtest_triangle_arbitrage_minute`:
current portfolio value, `portfolio_history`, `trade_returns`. -/
structure BTState where
  portfolio : ℚ
  history : List ℚ
  returns : List ℚ
deriving DecidableEq, Repr

/-- One iteration of the backtest loop over `historical_data`. -/
def backtestStep (trade_fraction threshold : ℚ) (st : BTState)
    (record : MarketData) : BTState :=
  match check_triangle_arbitrage threshold record with
  | none => ⟨st.portfolio, st.history ++ [st.portfolio], st.returns ++ [0]⟩
  | some sig =>
    if sig.cycle1_opportunity || sig.cycle2_opportunity then
      let selected_factor :=
        max (if sig.cycle1_opportunity then sig.cycle1_factor else 0)
            (if sig.cycle2_opportunity then sig.cycle2_factor else 0)
      let profit_pct := selected_factor - 1
      let trade_profit := st.portfolio * trade_fraction * profit_pct
      let newP := st.portfolio + trade_profit
      let risked := if newP - trade_profit ≠ 0 then newP - trade_profit else 1
      ⟨newP, st.history ++ [newP], st.returns ++ [trade_profit / risked]⟩
    else ⟨st.portfolio, st.history ++ [st.portfolio], st.returns ++ [0]⟩

/-- The whole simulation fold, from the initial 10000 USDT portfolio. -/
def backtestCore (historical_data : List MarketData)
    (trade_fraction threshold : ℚ) : BTState :=
  historical_data.foldl (backtestStep trade_fraction threshold)
    ⟨10000, [10000], []⟩

/-- `sum(trade_returns) / len(trade_returns) if trade_returns else 0`
(rational division by zero is `0`, which coincides with the guard). -/
def mean (l : List ℚ) : ℚ := l.sum / l.length

/-- `sum((r - avg) ** 2 for r in trade_returns) / len(trade_returns)`,
the population variance (the source stores its square root). -/
def popVariance (l : List ℚ) : ℚ :=
  ((l.map (fun r => (r - mean l) ^ 2)).sum) / l.length

/-- One iteration of the source's drawdown loop: raise the running peak,
then the running maximum of `(peak - value) / peak`. -/
def drawdownFold (acc : ℚ × ℚ) (value : ℚ) : ℚ × ℚ :=
  let peak := if value > acc.1 then value else acc.1
  let dd := (peak - value) / peak
  (peak, if dd > acc.2 then dd else acc.2)

/-- `max_drawdown` over `portfolio_history` (`peak` starts at
`portfolio_history[0]`; in every reachable run the history is nonempty and
the peak is at least the initial 10000, so the divisions are exact). -/
def maxDrawdown (history : List ℚ) : ℚ :=
  (history.foldl drawdownFold (history.headD 0, 0)).2

/-- The result dictionary of `backtest_triangle_arbitrage_minute`. -/
structure BacktestResult where
  portfolio_history : List ℚ
  cumulative_return : ℚ
  average_return : ℚ
  std_return : ℝ
  sharpe_ratio : EReal
  max_drawdown : ℚ

/-- `backtest_triangle_arbitrage_minute(historical_data, trade_fraction,
threshold)`: `None` on empty input, otherwise the summary built from the
simulation fold.  `std_return = variance ** 0.5`,
`sharpe_ratio = avg / std * 525600 ** 0.5 if std != 0 else float('inf')`. -/
noncomputable def backtest_triangle_arbitrage_minute
    (historical_data : List MarketData) (trade_fraction threshold : ℚ) :
    Option BacktestResult :=
  if historical_data = [] then none
  else
    let st := backtestCore historical_data trade_fraction threshold
    let avg := mean st.returns
    let std : ℝ := Real.sqrt ((popVariance st.returns : ℚ) : ℝ)
    some { portfolio_history := st.history
           cumulative_return := st.portfolio / 10000 - 1
           average_return := avg
           std_return := std
           sharpe_ratio :=
             if std ≠ 0 then (((avg : ℝ) / std * Real.sqrt 525600 : ℝ) : EReal)
             else (⊤ : EReal)
           max_drawdown := maxDrawdown st.history }

/-- A candle source that always returns an empty page (a systemic outage:
every retrieval loop stops on the first request). -/
def emptySource : OHLCVSource where
  limit := 100
  fetch := fun _ _ => []
  fetch_ge_since := by intro sym since c h; simp at h

end OkxTrader

namespace OkxTrader

/-! ## Evaluator: acceptance, reciprocity, flags (C1, C2, C4) -/

theorem check_eq_some (thr pb pe peb : ℚ) (ts : Nat)
    (hb0 : pb ≠ 0) (he0 : pe ≠ 0) (heb0 : peb ≠ 0) :
    check_triangle_arbitrage thr ⟨ts, some pb, some pe, some peb⟩ =
      some ⟨ts, pb, pe, peb, pe / (pb * peb), decide (pe / (pb * peb) > 1 + thr),
            (pb * peb) / pe, decide ((pb * peb) / pe > 1 + thr), thr⟩ := by
  simp [check_triangle_arbitrage, hb0, he0, heb0]

/-- C1: for every snapshot accepted by the evaluator (all three prices
present and nonzero) the two cycle factors are exact reciprocals: their
product is `1` over exact rational arithmetic. -/
theorem cycle_factors_reciprocal (thr : ℚ) (d : MarketData) (pb pe peb : ℚ)
    (hb : d.btc_usdt = some pb) (he : d.eth_usdt = some pe)
    (heb : d.eth_btc = some peb)
    (hb0 : pb ≠ 0) (he0 : pe ≠ 0) (heb0 : peb ≠ 0) :
    ∃ sig, check_triangle_arbitrage thr d = some sig ∧
      sig.cycle1_factor * sig.cycle2_factor = 1 := by
  obtain ⟨ts, b, e, eb⟩ := d
  cases hb; cases he; cases heb
  refine ⟨_, check_eq_some thr pb pe peb ts hb0 he0 heb0, ?_⟩
  show pe / (pb * peb) * ((pb * peb) / pe) = 1
  field_simp

theorem cycle_factors_reciprocal_witness :
    (⟨0, some 2, some 3, some 5⟩ : MarketData).btc_usdt = some 2 ∧
    (⟨0, some 2, some 3, some 5⟩ : MarketData).eth_usdt = some 3 ∧
    (⟨0, some 2, some 3, some 5⟩ : MarketData).eth_btc = some 5 ∧
    (2 : ℚ) ≠ 0 ∧ (3 : ℚ) ≠ 0 ∧ (5 : ℚ) ≠ 0 ∧
    ∃ sig, check_triangle_arbitrage 1 ⟨0, some 2, some 3, some 5⟩ = some sig ∧
      sig.cycle1_factor * sig.cycle2_factor = 1 :=
  ⟨rfl, rfl, rfl, by norm_num, by norm_num, by norm_num,
    cycle_factors_reciprocal 1 ⟨0, some 2, some 3, some 5⟩ 2 3 5 rfl rfl rfl
      (by norm_num) (by norm_num) (by norm_num)⟩

/-- C2 counterexample: a snapshot with a negative (hence non-positive)
price is accepted by `check_triangle_arbitrage` and a signal is produced,
because the Python truthiness guard only rejects `None` and `0`. -/
theorem check_accepts_negative_price :
    (check_triangle_arbitrage (2/1000) ⟨0, some (-1), some 1, some 1⟩).isSome
      = true := by decide

/-- C2 (amended): the evaluator produces no signal exactly when one of the
three prices is null or zero; a negative price passes the guard. -/
theorem check_none_iff_null_or_zero (thr : ℚ) (d : MarketData) :
    check_triangle_arbitrage thr d = none ↔
      d.btc_usdt.getD 0 = 0 ∨ d.eth_usdt.getD 0 = 0 ∨ d.eth_btc.getD 0 = 0 := by
  obtain ⟨ts, b, e, eb⟩ := d
  cases b <;> cases e <;> cases eb <;>
    simp [check_triangle_arbitrage] <;> tauto

/-- C4: in every produced signal, `cycle1_is_opportunity` holds iff
`cycle1_factor > 1 + threshold`, and symmetrically for cycle 2. -/
theorem opportunity_flags_iff (thr : ℚ) (d : MarketData) (sig : ArbSignal)
    (h : check_triangle_arbitrage thr d = some sig) :
    (sig.cycle1_opportunity = true ↔ sig.cycle1_factor > 1 + thr) ∧
    (sig.cycle2_opportunity = true ↔ sig.cycle2_factor > 1 + thr) := by
  obtain ⟨ts, b, e, eb⟩ := d
  cases b <;> cases e <;> cases eb <;> simp [check_triangle_arbitrage] at h
  obtain ⟨-, rfl⟩ := h
  simp

theorem opportunity_flags_iff_witness :
    check_triangle_arbitrage 0 ⟨0, some 2, some 3, some 5⟩ =
      some ⟨0, 2, 3, 5, 3 / (2 * 5), decide ((3 : ℚ) / (2 * 5) > 1 + 0),
            2 * 5 / 3, decide ((2 : ℚ) * 5 / 3 > 1 + 0), 0⟩ ∧
    ((⟨0, 2, 3, 5, 3 / (2 * 5), decide ((3 : ℚ) / (2 * 5) > 1 + 0),
        2 * 5 / 3, decide ((2 : ℚ) * 5 / 3 > 1 + 0), 0⟩ :
          ArbSignal).cycle1_opportunity = true ↔
        (3 : ℚ) / (2 * 5) > 1 + 0) ∧
    ((⟨0, 2, 3, 5, 3 / (2 * 5), decide ((3 : ℚ) / (2 * 5) > 1 + 0),
        2 * 5 / 3, decide ((2 : ℚ) * 5 / 3 > 1 + 0), 0⟩ :
          ArbSignal).cycle2_opportunity = true ↔
        (2 : ℚ) * 5 / 3 > 1 + 0) :=
  ⟨check_eq_some 0 2 3 5 0 (by norm_num) (by norm_num) (by norm_num),
    opportunity_flags_iff 0 ⟨0, some 2, some 3, some 5⟩ _
      (check_eq_some 0 2 3 5 0 (by norm_num) (by norm_num) (by norm_num))⟩

end OkxTrader

namespace OkxTrader

/-! ## Snapshot reader (C3) and backtest empty input (C9) -/

/-- C3 counterexample: when all three ticker calls return but one ticker
lacks its last-price field, `fetch_triangle_market_data` still returns a
snapshot — with a null price field — instead of failing. -/
theorem fetch_returns_partial_snapshot :
    fetch_triangle_market_data 0 (some ⟨none, some 5⟩) (some ⟨some 2, some 6⟩)
        (some ⟨some 3, some 7⟩) =
      some ⟨0, none, some 5, some 2, some 6, some 3, some 7⟩ ∧
    (⟨0, none, some 5, some 2, some 6, some 3, some 7⟩ :
        TriangleData).btc_usdt_last = none :=
  ⟨rfl, rfl⟩

/-- C3 (amended): the snapshot reader fails exactly when one of the three
quote calls errors; when all three calls return it assembles the snapshot
from the optional ticker fields, so a missing last-price field is passed
through as a null price rather than reported as a failure. -/
theorem fetch_none_iff_call_error (now : Nat) (tb te teb : Option Ticker) :
    (fetch_triangle_market_data now tb te teb = none ↔
      tb = none ∨ te = none ∨ teb = none) ∧
    (∀ b e eb, tb = some b → te = some e → teb = some eb →
      fetch_triangle_market_data now tb te teb =
        some ⟨now, b.last, b.baseVolume, e.last, e.baseVolume,
              eb.last, eb.baseVolume⟩) := by
  cases tb <;> cases te <;> cases teb <;>
    simp [fetch_triangle_market_data]

theorem fetch_none_iff_call_error_witness :
    fetch_triangle_market_data 0 (some ⟨some 1, some 2⟩) (some ⟨some 3, some 4⟩)
        (some ⟨some 5, some 6⟩) =
      some ⟨0, some 1, some 2, some 3, some 4, some 5, some 6⟩ :=
  (fetch_none_iff_call_error 0 (some ⟨some 1, some 2⟩) (some ⟨some 3, some 4⟩)
      (some ⟨some 5, some 6⟩)).2 ⟨some 1, some 2⟩ ⟨some 3, some 4⟩
    ⟨some 5, some 6⟩ rfl rfl rfl

/-- C9: the backtest reports an explicit failure (returns nothing) on an
empty record sequence rather than a zeroed result, and never fails at this
emptiness check on a non-empty sequence. -/
theorem backtest_empty_input (tf thr : ℚ) (data : List MarketData) :
    backtest_triangle_arbitrage_minute [] tf thr = none ∧
    (data ≠ [] →
      (backtest_triangle_arbitrage_minute data tf thr).isSome = true) := by
  constructor
  · simp [backtest_triangle_arbitrage_minute]
  · intro h
    simp [backtest_triangle_arbitrage_minute, h]

theorem backtest_empty_input_witness :
    backtest_triangle_arbitrage_minute [] (1/10) (2/1000) = none ∧
    ([⟨0, some 1, some 1, some 1⟩] : List MarketData) ≠ [] ∧
    (backtest_triangle_arbitrage_minute [⟨0, some 1, some 1, some 1⟩]
        (1/10) (2/1000)).isSome = true :=
  ⟨(backtest_empty_input (1/10) (2/1000) [⟨0, some 1, some 1, some 1⟩]).1,
   by simp,
   (backtest_empty_input (1/10) (2/1000) [⟨0, some 1, some 1, some 1⟩]).2
     (by simp)⟩

/-! ## Merge step (C6) -/

theorem mem_commonTs (k1 k2 k3 : List Nat) (t : Nat) :
    t ∈ commonTs k1 k2 k3 ↔ t ∈ k1 ∧ t ∈ k2 ∧ t ∈ k3 := by
  unfold commonTs
  rw [(List.perm_insertionSort _ _).mem_iff]
  simp [List.mem_filter]

theorem commonTs_nodup (k1 k2 k3 : List Nat) : (commonTs k1 k2 k3).Nodup :=
  (List.perm_insertionSort _ _).nodup_iff.mpr (List.nodup_dedup _)

theorem commonTs_sorted (k1 k2 k3 : List Nat) :
    List.Sorted (· < ·) (commonTs k1 k2 k3) :=
  (List.sorted_insertionSort _ _).lt_of_le (commonTs_nodup k1 k2 k3)

theorem mergeWindow_timestamps (d1 d2 d3 : List (Nat × ℚ)) :
    (mergeWindow d1 d2 d3).map (fun r => r.timestamp) =
      commonTs (dict_keys d1) (dict_keys d2) (dict_keys d3) := by
  rw [mergeWindow, List.map_map]
  exact List.map_id _

/-- C6: the merge emits exactly one record per timestamp key in the
intersection of the three per-pair key sets (keys present in fewer than
three pairs are dropped); on key sets {1,2,3}, {2,3,4}, {3,4,5} the
aligned output contains exactly the key 3. -/
theorem merge_intersection_semantics :
    (∀ d1 d2 d3 : List (Nat × ℚ),
      ((mergeWindow d1 d2 d3).map (fun r => r.timestamp)).Nodup ∧
      ∀ t, t ∈ (mergeWindow d1 d2 d3).map (fun r => r.timestamp) ↔
        (t ∈ dict_keys d1 ∧ t ∈ dict_keys d2 ∧ t ∈ dict_keys d3)) ∧
    (mergeWindow [(1, (1:ℚ)), (2, 1), (3, 1)] [(2, 1), (3, 1), (4, 1)]
        [(3, 1), (4, 1), (5, 1)]).map (fun r => r.timestamp) = [3] := by
  refine ⟨fun d1 d2 d3 => ⟨?_, fun t => ?_⟩, ?_⟩
  · rw [mergeWindow_timestamps]; exact commonTs_nodup _ _ _
  · rw [mergeWindow_timestamps]; exact mem_commonTs _ _ _ t
  · decide

end OkxTrader

namespace OkxTrader

/-! ## Backtest step and statistics (C5, C8, C10) -/

theorem check_some_flags (thr : ℚ) (record : MarketData) (sig : ArbSignal)
    (h : check_triangle_arbitrage thr record = some sig) :
    sig.cycle1_opportunity = decide (sig.cycle1_factor > 1 + thr) ∧
    sig.cycle2_opportunity = decide (sig.cycle2_factor > 1 + thr) := by
  obtain ⟨ts, b, e, eb⟩ := record
  cases b <;> cases e <;> cases eb <;> simp [check_triangle_arbitrage] at h
  obtain ⟨-, rfl⟩ := h
  simp

/-- C5 counterexample: a record whose signal flags only cycle 2, with a
negative flagged factor (threshold below -1), is traded with
`selected_factor = 0`, not with the sole flagged factor -1/2: the new
portfolio is 9000 while the claimed rule prescribes 8500. -/
theorem backtest_step_sole_negative_factor :
    check_triangle_arbitrage (-5/2) ⟨0, some 1, some (-2), some 1⟩ =
      some ⟨0, 1, -2, 1, -2, false, -1/2, true, -5/2⟩ ∧
    (backtestStep (1/10) (-5/2) ⟨10000, [10000], []⟩
        ⟨0, some 1, some (-2), some 1⟩).portfolio = 9000 ∧
    (10000 : ℚ) + 10000 * (1/10) * (-1/2 - 1) = 8500 ∧
    (9000 : ℚ) ≠ 8500 := by
  refine ⟨?_, ?_, by norm_num, by norm_num⟩
  · rw [check_eq_some (-5/2) 1 (-2) 1 0 (by norm_num) (by norm_num) (by norm_num)]
    norm_num
  · simp only [backtestStep,
      check_eq_some (-5/2) 1 (-2) 1 0 (by norm_num) (by norm_num) (by norm_num)]
    norm_num

/-- C5 (amended): on a record whose signal flags at least one cycle the
simulator selects `max(cycle1 if flagged else 0, cycle2 if flagged else 0)`
— equal to the larger flagged factor (or the sole flagged one) whenever
the cycle factors are positive, but a sole flagged negative factor
(possible only for thresholds below -1) is replaced by 0 — sets
`profit_fraction = selected_factor - 1`, adds
`trade_profit = portfolio * trade_fraction * profit_fraction` to the
portfolio, and records `trade_return = trade_profit /
(portfolio_after - trade_profit)`, substituting 1 for a zero
denominator. -/
theorem backtest_step_opportunity (tf thr : ℚ) (st : BTState)
    (record : MarketData) (sig : ArbSignal)
    (hsig : check_triangle_arbitrage thr record = some sig)
    (hopp : sig.cycle1_opportunity = true ∨ sig.cycle2_opportunity = true) :
    (backtestStep tf thr st record =
      (let selected_factor :=
        max (if sig.cycle1_opportunity then sig.cycle1_factor else 0)
            (if sig.cycle2_opportunity then sig.cycle2_factor else 0)
       let trade_profit := st.portfolio * tf * (selected_factor - 1)
       let newP := st.portfolio + trade_profit
       ⟨newP, st.history ++ [newP],
        st.returns ++ [trade_profit /
          (if newP - trade_profit ≠ 0 then newP - trade_profit else 1)]⟩)) ∧
    (0 < sig.cycle1_factor → 0 < sig.cycle2_factor →
      max (if sig.cycle1_opportunity then sig.cycle1_factor else 0)
          (if sig.cycle2_opportunity then sig.cycle2_factor else 0) =
        if sig.cycle1_opportunity ∧ sig.cycle2_opportunity then
          max sig.cycle1_factor sig.cycle2_factor
        else if sig.cycle1_opportunity then sig.cycle1_factor
        else sig.cycle2_factor) := by
  constructor
  · have hb : (sig.cycle1_opportunity || sig.cycle2_opportunity) = true := by
      rcases hopp with h | h <;> simp [h]
    simp only [backtestStep, hsig]
    rw [if_pos hb]
  · intro hpos1 hpos2
    cases hc1 : sig.cycle1_opportunity <;> cases hc2 : sig.cycle2_opportunity
    · rw [hc1, hc2] at hopp; simp at hopp
    · simp [max_eq_right hpos2.le]
    · simp [max_eq_left hpos1.le]
    · simp

theorem backtest_step_opportunity_witness :
    check_triangle_arbitrage (2/1000) ⟨0, some 100, some 110, some 1⟩ =
      some ⟨0, 100, 110, 1, 11/10, true, 10/11, false, 2/1000⟩ ∧
    ((⟨0, 100, 110, 1, 11/10, true, 10/11, false, 2/1000⟩ :
        ArbSignal).cycle1_opportunity = true ∨
      (⟨0, 100, 110, 1, 11/10, true, 10/11, false, 2/1000⟩ :
        ArbSignal).cycle2_opportunity = true) ∧
    ((backtestStep (1/10) (2/1000) ⟨10000, [10000], []⟩
        ⟨0, some 100, some 110, some 1⟩ =
      (let selected_factor :=
        max (if (⟨0, 100, 110, 1, 11/10, true, 10/11, false, 2/1000⟩ :
              ArbSignal).cycle1_opportunity then
            (⟨0, 100, 110, 1, 11/10, true, 10/11, false, 2/1000⟩ :
              ArbSignal).cycle1_factor else 0)
            (if (⟨0, 100, 110, 1, 11/10, true, 10/11, false, 2/1000⟩ :
              ArbSignal).cycle2_opportunity then
            (⟨0, 100, 110, 1, 11/10, true, 10/11, false, 2/1000⟩ :
              ArbSignal).cycle2_factor else 0)
       let trade_profit := (⟨10000, [10000], []⟩ : BTState).portfolio * (1/10) *
          (selected_factor - 1)
       let newP := (⟨10000, [10000], []⟩ : BTState).portfolio + trade_profit
       ⟨newP, (⟨10000, [10000], []⟩ : BTState).history ++ [newP],
        (⟨10000, [10000], []⟩ : BTState).returns ++ [trade_profit /
          (if newP - trade_profit ≠ 0 then newP - trade_profit else 1)]⟩)) ∧
    (0 < (⟨0, 100, 110, 1, 11/10, true, 10/11, false, 2/1000⟩ :
          ArbSignal).cycle1_factor →
      0 < (⟨0, 100, 110, 1, 11/10, true, 10/11, false, 2/1000⟩ :
          ArbSignal).cycle2_factor →
      max (if (⟨0, 100, 110, 1, 11/10, true, 10/11, false, 2/1000⟩ :
            ArbSignal).cycle1_opportunity then
          (⟨0, 100, 110, 1, 11/10, true, 10/11, false, 2/1000⟩ :
            ArbSignal).cycle1_factor else 0)
          (if (⟨0, 100, 110, 1, 11/10, true, 10/11, false, 2/1000⟩ :
            ArbSignal).cycle2_opportunity then
          (⟨0, 100, 110, 1, 11/10, true, 10/11, false, 2/1000⟩ :
            ArbSignal).cycle2_factor else 0) =
        if (⟨0, 100, 110, 1, 11/10, true, 10/11, false, 2/1000⟩ :
              ArbSignal).cycle1_opportunity ∧
            (⟨0, 100, 110, 1, 11/10, true, 10/11, false, 2/1000⟩ :
              ArbSignal).cycle2_opportunity then
          max (⟨0, 100, 110, 1, 11/10, true, 10/11, false, 2/1000⟩ :
              ArbSignal).cycle1_factor
            (⟨0, 100, 110, 1, 11/10, true, 10/11, false, 2/1000⟩ :
              ArbSignal).cycle2_factor
        else if (⟨0, 100, 110, 1, 11/10, true, 10/11, false, 2/1000⟩ :
            ArbSignal).cycle1_opportunity then
          (⟨0, 100, 110, 1, 11/10, true, 10/11, false, 2/1000⟩ :
            ArbSignal).cycle1_factor
        else (⟨0, 100, 110, 1, 11/10, true, 10/11, false, 2/1000⟩ :
            ArbSignal).cycle2_factor)) := by
  have hs : check_triangle_arbitrage (2/1000) ⟨0, some 100, some 110, some 1⟩ =
      some ⟨0, 100, 110, 1, 11/10, true, 10/11, false, 2/1000⟩ := by
    rw [check_eq_some (2/1000) 100 110 1 0 (by norm_num) (by norm_num)
      (by norm_num)]
    norm_num
  exact ⟨hs, Or.inl rfl,
    backtest_step_opportunity (1/10) (2/1000) ⟨10000, [10000], []⟩
      ⟨0, some 100, some 110, some 1⟩ _ hs (Or.inl rfl)⟩

end OkxTrader

namespace OkxTrader

/-- C8: for a non-empty run, `average_return` is the arithmetic mean of
the per-step trade returns, `std_return` the square root of their
population variance, and `sharpe_ratio` equals
`average_return / std_return * sqrt(525600)` whenever `std_return` is
nonzero and is positive infinity when `std_return = 0`. -/
theorem backtest_sharpe_ratio (data : List MarketData) (tf thr : ℚ)
    (hne : data ≠ []) :
    ∃ r, backtest_triangle_arbitrage_minute data tf thr = some r ∧
      r.average_return = mean (backtestCore data tf thr).returns ∧
      r.std_return =
        Real.sqrt ((popVariance (backtestCore data tf thr).returns : ℚ) : ℝ) ∧
      r.sharpe_ratio = (if r.std_return = 0 then (⊤ : EReal)
        else (((r.average_return : ℝ) / r.std_return * Real.sqrt 525600 : ℝ) :
          EReal)) := by
  rw [backtest_triangle_arbitrage_minute, if_neg hne]
  refine ⟨_, rfl, rfl, rfl, ?_⟩
  by_cases h : Real.sqrt ((popVariance (backtestCore data tf thr).returns : ℚ) : ℝ) = 0 <;>
    simp [h]

theorem backtest_sharpe_ratio_witness :
    ([⟨0, some 1, some 1, some 1⟩] : List MarketData) ≠ [] ∧
    ∃ r, backtest_triangle_arbitrage_minute [⟨0, some 1, some 1, some 1⟩]
        (1/10) (2/1000) = some r ∧
      r.average_return =
        mean (backtestCore [⟨0, some 1, some 1, some 1⟩] (1/10) (2/1000)).returns ∧
      r.std_return =
        Real.sqrt ((popVariance
          (backtestCore [⟨0, some 1, some 1, some 1⟩] (1/10) (2/1000)).returns :
            ℚ) : ℝ) ∧
      r.sharpe_ratio = (if r.std_return = 0 then (⊤ : EReal)
        else (((r.average_return : ℝ) / r.std_return * Real.sqrt 525600 : ℝ) :
          EReal)) :=
  ⟨by simp, backtest_sharpe_ratio [⟨0, some 1, some 1, some 1⟩] (1/10) (2/1000)
    (by simp)⟩

/-! ## Monotonicity of the portfolio and zero drawdown (C10) -/

theorem backtestStep_mono (tf thr : ℚ) (htf : 0 < tf) (hthr : 0 ≤ thr)
    (st : BTState) (record : MarketData) (hpos : 0 < st.portfolio) :
    st.portfolio ≤ (backtestStep tf thr st record).portfolio ∧
    0 < (backtestStep tf thr st record).portfolio ∧
    (backtestStep tf thr st record).history =
      st.history ++ [(backtestStep tf thr st record).portfolio] := by
  cases hsig : check_triangle_arbitrage thr record with
  | none => simp [backtestStep, hsig, hpos]
  | some sig =>
    obtain ⟨hf1, hf2⟩ := check_some_flags thr record sig hsig
    by_cases hopp : (sig.cycle1_opportunity || sig.cycle2_opportunity) = true
    · have hsel : 1 + thr <
          max (if sig.cycle1_opportunity then sig.cycle1_factor else 0)
              (if sig.cycle2_opportunity then sig.cycle2_factor else 0) := by
        rcases (by simpa using hopp :
            sig.cycle1_opportunity = true ∨ sig.cycle2_opportunity = true) with
          h1 | h2
        · have hgt : sig.cycle1_factor > 1 + thr := by
            have hd : decide (sig.cycle1_factor > 1 + thr) = true := by
              rw [← hf1]; exact h1
            exact of_decide_eq_true hd
          calc 1 + thr < sig.cycle1_factor := hgt
            _ = (if sig.cycle1_opportunity then sig.cycle1_factor else 0) := by
                rw [h1]; simp
            _ ≤ _ := le_max_left _ _
        · have hgt : sig.cycle2_factor > 1 + thr := by
            have hd : decide (sig.cycle2_factor > 1 + thr) = true := by
              rw [← hf2]; exact h2
            exact of_decide_eq_true hd
          calc 1 + thr < sig.cycle2_factor := hgt
            _ = (if sig.cycle2_opportunity then sig.cycle2_factor else 0) := by
                rw [h2]; simp
            _ ≤ _ := le_max_right _ _
      have hprofit : 0 < st.portfolio * tf *
          (max (if sig.cycle1_opportunity then sig.cycle1_factor else 0)
               (if sig.cycle2_opportunity then sig.cycle2_factor else 0) - 1) :=
        mul_pos (mul_pos hpos htf) (by linarith)
      simp only [backtestStep, hsig]
      rw [if_pos hopp]
      refine ⟨by linarith, by linarith, rfl⟩
    · simp only [backtestStep, hsig]
      rw [if_neg hopp]
      exact ⟨le_refl _, hpos, rfl⟩

theorem backtestCore_fold_good (tf thr : ℚ) (htf : 0 < tf) (hthr : 0 ≤ thr)
    (data : List MarketData) :
    ∀ st : BTState, 0 < st.portfolio →
      List.Chain' (· ≤ ·) st.history →
      (∀ x ∈ st.history, x ≤ st.portfolio) →
      0 < (data.foldl (backtestStep tf thr) st).portfolio ∧
      List.Chain' (· ≤ ·) (data.foldl (backtestStep tf thr) st).history ∧
      (∀ x ∈ (data.foldl (backtestStep tf thr) st).history,
        x ≤ (data.foldl (backtestStep tf thr) st).portfolio) := by
  induction data with
  | nil => exact fun st h1 h2 h3 => ⟨h1, h2, h3⟩
  | cons r rest ih =>
    intro st h1 h2 h3
    obtain ⟨hle, hpos, hhist⟩ := backtestStep_mono tf thr htf hthr st r h1
    rw [List.foldl_cons]
    refine ih _ hpos ?_ ?_
    · rw [hhist]
      rw [List.chain'_append]
      refine ⟨h2, List.chain'_singleton _, ?_⟩
      intro x hx y hy
      simp only [List.head?_cons, Option.mem_def, Option.some.injEq] at hy
      subst hy
      have hxmem : x ∈ st.history := List.mem_of_mem_getLast? hx
      exact (h3 x hxmem).trans hle
    · rw [hhist]
      intro x hx
      rcases List.mem_append.mp hx with hx | hx
      · exact (h3 x hx).trans hle
      · simp only [List.mem_singleton] at hx
        subst hx
        exact le_refl _

theorem drawdownFold_zero :
    ∀ (l : List ℚ) (p : ℚ),
      List.Chain' (· ≤ ·) (p :: l) → (l.foldl drawdownFold (p, 0)).2 = 0
  | [], _, _ => rfl
  | v :: l, p, h => by
    have hpv : p ≤ v := (List.chain'_cons.mp h).1
    have hstep : drawdownFold (p, 0) v = (v, 0) := by
      unfold drawdownFold
      by_cases hv : v > p
      · simp [hv]
      · have hvp : v = p := le_antisymm (not_lt.mp hv) hpv
        subst hvp
        simp
    rw [List.foldl_cons, hstep]
    exact drawdownFold_zero l v (List.chain'_cons.mp h).2

theorem maxDrawdown_of_chain (hist : List ℚ)
    (h : List.Chain' (· ≤ ·) hist) : maxDrawdown hist = 0 := by
  cases hist with
  | nil => rfl
  | cons h0 rest =>
    unfold maxDrawdown
    simp only [List.headD_cons, List.foldl_cons]
    have h1 : drawdownFold (h0, 0) h0 = (h0, 0) := by
      unfold drawdownFold
      simp
    rw [h1]
    exact drawdownFold_zero rest h0 h

/-- C10 (implicit invariant): for trade fractions in (0, 1] and
thresholds ≥ 0 the portfolio value never decreases from step to step
(flagged records have selected factor above 1 + threshold, others leave
the value unchanged), so the reported max_drawdown is exactly 0. -/
theorem backtest_portfolio_monotone (data : List MarketData) (tf thr : ℚ)
    (htf0 : 0 < tf) (htf1 : tf ≤ 1) (hthr : 0 ≤ thr) :
    List.Chain' (· ≤ ·) (backtestCore data tf thr).history ∧
    maxDrawdown (backtestCore data tf thr).history = 0 ∧
    ∀ r, backtest_triangle_arbitrage_minute data tf thr = some r →
      r.max_drawdown = 0 := by
  have hinit : (0:ℚ) < (⟨10000, [10000], []⟩ : BTState).portfolio := by norm_num
  have hchain : List.Chain' (· ≤ ·) ([10000] : List ℚ) :=
    List.chain'_singleton _
  have hle : ∀ x ∈ ([10000] : List ℚ),
      x ≤ (⟨10000, [10000], []⟩ : BTState).portfolio := by
    intro x hx
    simp only [List.mem_singleton] at hx
    subst hx
    exact le_refl _
  obtain ⟨hpos, hch, hbd⟩ :=
    backtestCore_fold_good tf thr htf0 hthr data ⟨10000, [10000], []⟩
      hinit hchain hle
  refine ⟨hch, maxDrawdown_of_chain _ hch, ?_⟩
  intro r hr
  by_cases hd : data = []
  · subst hd
    rw [backtest_triangle_arbitrage_minute, if_pos rfl] at hr
    cases hr
  · rw [backtest_triangle_arbitrage_minute, if_neg hd] at hr
    cases hr
    exact maxDrawdown_of_chain _ hch

theorem backtest_portfolio_monotone_witness :
    (0:ℚ) < 1/10 ∧ (1/10 : ℚ) ≤ 1 ∧ (0:ℚ) ≤ 2/1000 ∧
    (List.Chain' (· ≤ ·)
        (backtestCore [⟨0, some 1, some 1, some 1⟩] (1/10) (2/1000)).history ∧
      maxDrawdown
        (backtestCore [⟨0, some 1, some 1, some 1⟩] (1/10) (2/1000)).history
        = 0 ∧
      ∀ r, backtest_triangle_arbitrage_minute [⟨0, some 1, some 1, some 1⟩]
          (1/10) (2/1000) = some r → r.max_drawdown = 0) :=
  ⟨by norm_num, by norm_num, by norm_num,
    backtest_portfolio_monotone [⟨0, some 1, some 1, some 1⟩] (1/10) (2/1000)
      (by norm_num) (by norm_num) (by norm_num)⟩

end OkxTrader

namespace OkxTrader

/-! ## Global ordering of the emitted historical sequence (C7) -/

theorem mem_takeWhile_ts_lt (endTs : Nat) :
    ∀ (l : List Candle) (c : Candle),
      c ∈ l.takeWhile (fun cd => decide (cd.ts < endTs)) →
      c ∈ l ∧ c.ts < endTs
  | [], c, h => absurd h (by simp)
  | a :: as, c, h => by
    rw [List.takeWhile_cons] at h
    by_cases ha : a.ts < endTs
    · rw [if_pos (by simpa using ha)] at h
      rcases List.mem_cons.mp h with rfl | h2
      · exact ⟨List.mem_cons_self _ _, ha⟩
      · obtain ⟨hm, hlt⟩ := mem_takeWhile_ts_lt endTs as c h2
        exact ⟨List.mem_cons_of_mem _ hm, hlt⟩
    · rw [if_neg (by simpa using ha)] at h
      exact absurd h (by simp)

theorem fetchPairCandles_mem_range (o : OHLCVSource) (sym : String)
    (endTs since : Nat) (c : Candle)
    (hc : c ∈ fetchPairCandles o sym endTs since) :
    since ≤ c.ts ∧ c.ts < endTs := by
  rw [fetchPairCandles.eq_def] at hc
  split at hc
  case isTrue hlt =>
    split at hc
    case _ heq => exact absurd hc (by simp)
    case _ a as heq =>
      have hbatch : ∀ x ∈ a :: as, since ≤ x.ts := by
        intro x hx
        exact o.fetch_ge_since sym since x (heq ▸ hx)
      split at hc
      · obtain ⟨hm, hlt2⟩ := mem_takeWhile_ts_lt endTs (a :: as) c hc
        exact ⟨hbatch c hm, hlt2⟩
      · rcases List.mem_append.mp hc with hk | hr
        · obtain ⟨hm, hlt2⟩ := mem_takeWhile_ts_lt endTs (a :: as) c hk
          exact ⟨hbatch c hm, hlt2⟩
        · have hlast : since ≤ ((a :: as).getLast (List.cons_ne_nil a as)).ts :=
            hbatch _ (List.getLast_mem _)
          have hrec := fetchPairCandles_mem_range o sym endTs
            (((a :: as).getLast (List.cons_ne_nil a as)).ts + 1) c hr
          exact ⟨by omega, hrec.2⟩
  case isFalse hlt => exact absurd hc (by simp)
termination_by endTs - since
decreasing_by omega

theorem windows_mem_bounds (chunk start endT : Nat) (w : Nat × Nat)
    (hw : w ∈ windows chunk start endT) :
    start ≤ w.1 ∧ w.1 < w.2 ∧ w.2 ≤ endT := by
  rw [windows.eq_def] at hw
  split at hw
  case isTrue h =>
    rcases List.mem_cons.mp hw with rfl | h2
    · refine ⟨le_refl _, by omega, by omega⟩
    · have hrec := windows_mem_bounds chunk (min (start + chunk) endT) endT w h2
      exact ⟨by omega, hrec.2.1, hrec.2.2⟩
  case isFalse h => exact absurd hw (by simp)
termination_by endT - start
decreasing_by omega

theorem windowRecords_ts_bounds (o : OHLCVSource) (a b t : Nat)
    (ht : t ∈ (windowRecords o a b).map (fun r => r.timestamp)) :
    a ≤ t ∧ t < b := by
  rw [windowRecords, mergeWindow_timestamps] at ht
  have h1 := ((mem_commonTs _ _ _ t).mp ht).1
  rw [dict_keys, List.mem_dedup, candleDict, List.map_map] at h1
  obtain ⟨c, hc, hct⟩ := List.mem_map.mp h1
  have hts : c.ts = t := hct
  subst hts
  exact fetchPairCandles_mem_range o "BTC/USDT" b a c hc

theorem windowRecords_ts_sorted (o : OHLCVSource) (a b : Nat) :
    List.Sorted (· < ·) ((windowRecords o a b).map (fun r => r.timestamp)) := by
  rw [windowRecords, mergeWindow_timestamps]
  exact commonTs_sorted _ _ _

theorem flatMap_ts_lower_bound (o : OHLCVSource) (chunk endT m y : Nat)
    (hy : y ∈ ((windows chunk m endT).flatMap
        (fun w => windowRecords o w.1 w.2)).map (fun r => r.timestamp)) :
    m ≤ y := by
  obtain ⟨r, hr, hrt⟩ := List.mem_map.mp hy
  obtain ⟨w, hw, hrw⟩ := List.mem_flatMap.mp hr
  have hb := windows_mem_bounds chunk m endT w hw
  have ht := windowRecords_ts_bounds o w.1 w.2 r.timestamp
    (List.mem_map_of_mem _ hrw)
  omega

theorem fetch_all_sorted_aux (o : OHLCVSource) (chunk endT start : Nat) :
    List.Sorted (· < ·)
      (((windows chunk start endT).flatMap
        (fun w => windowRecords o w.1 w.2)).map (fun r => r.timestamp)) := by
  rw [windows.eq_def]
  split
  case isTrue h =>
    rw [List.flatMap_cons, List.map_append]
    refine List.pairwise_append.mpr
      ⟨windowRecords_ts_sorted o start (min (start + chunk) endT),
            fetch_all_sorted_aux o chunk endT (min (start + chunk) endT), ?_⟩
    intro x hx y hy
    have hxb := windowRecords_ts_bounds o start (min (start + chunk) endT) x hx
    have hyb := flatMap_ts_lower_bound o chunk endT (min (start + chunk) endT)
      y hy
    omega
  case isFalse h => simp
termination_by endT - start
decreasing_by omega

/-- C7: for every candle source obeying the paging contract, positive
chunk size and non-empty range, the full emitted record sequence across
all sub-windows is strictly increasing in timestamp (no duplicates):
sub-windows are processed in order and each is fully emitted, ascending,
before the next begins. -/
theorem historical_records_sorted (o : OHLCVSource) (start endT chunk : Nat)
    (hchunk : 0 < chunk) (hne : start < endT) :
    List.Sorted (· < ·)
      ((fetch_all_historical_triangle_data_incremental o start endT chunk).map
        (fun r => r.timestamp)) := by
  rw [fetch_all_historical_triangle_data_incremental]
  exact fetch_all_sorted_aux o chunk endT start

theorem historical_records_sorted_witness :
    0 < 1 ∧ (0 : Nat) < 1 ∧
    List.Sorted (· < ·)
      ((fetch_all_historical_triangle_data_incremental emptySource 0 1 1).map
        (fun r => r.timestamp)) :=
  ⟨by decide, by decide,
    historical_records_sorted emptySource 0 1 1 (by decide) (by decide)⟩

end OkxTrader
